import Mathlib

/-!
Verification of the PerFlexity streaming transport and resilience layer.

The definitions below are a shallow embedding of the TypeScript sources:

* `StreamingService.processStream` / `processSSELine` / `handle*Event`
  (streaming service), together with the WHATWG `TextDecoder` UTF-8
  streaming decoder that `processStream` relies on;
* `ErrorRecoveryManager.classifyError` / `calculateDelay` /
  `attemptRecovery` / `incrementFailureCount` / `handleMaxRetriesExceeded`
  and the static table `ERROR_CLASSIFICATION_RULES`
  (`src/frontend/src/services/error-recovery.ts`).

Modelling conventions:

* JavaScript strings are modelled as `List Char`; byte chunks as `List Nat`.
* `JSON.parse` plus the field-defaulting performed by the individual
  `handle*Event` helpers is abstracted as a parameter
  `parse : List Char → Option SSEEvent`; the Lean theorems quantify over it.
* Handler callbacks (`onError`) and the payloads handed to `JSON.parse`
  are recorded as an emission trace (`Emit`), since the service object does
  not store them.
* JavaScript numbers (delays, timestamps, `Math.random()`) are modelled
  as exact rationals `ℚ`; `Date.now()` is one clock reading per recursion
  level of `attemptRecovery`, supplied as a function of the attempt number.
* Fields of the service that no modelled code path reads (timestamps,
  retry bookkeeping of the reconnection timer) are omitted.
-/

/-! ## SSE data model (`src/frontend/src/types/sse.ts`) -/

/-- The `SSEConnectionState` enum from `types/sse.ts`. -/
inductive SSEConnState where
  | disconnected
  | connecting
  | connected
  | reconnecting
  | error
deriving DecidableEq

/-- A single source document, as carried by a `sources` event. -/
structure SourceItem where
  id : List Char
  title : List Char
  url : List Char
  snippet : List Char
deriving DecidableEq

/-- A citation, as carried by a `citation` event. -/
structure CitationItem where
  id : List Char
  title : List Char
  url : List Char
  snippet : List Char
deriving DecidableEq

/-- A claim record, as carried by `claim` / `claims` events. -/
structure ClaimItem where
  id : List Char
  text : List Char
  evidence_count : Nat
  has_conflict : Bool
  uncertainty : Bool
deriving DecidableEq

/-- Typed SSE events, the discriminated union dispatched by
`StreamingService.handleSSEEvent`.  The `unknown` constructor covers both a
payload without a `type` field and an unrecognised `type` (the service logs
and ignores both). -/
inductive SSEEvent where
  | start (conversation_id message_id : List Char)
  | token (content : List Char)
  | sources (sources : List SourceItem)
  | claims (claims : List ClaimItem)
  | citation (c : CitationItem)
  | claim (c : ClaimItem)
  | done
  | error (msg : List Char) (code : Option (List Char)) (retry_after : Option ℚ)
  | heartbeat
  | unknown
deriving DecidableEq

/-- Observable emissions of the streaming service: each payload string handed
to `JSON.parse`, and each invocation of the `onError` handler. -/
inductive Emit where
  | payloadAttempt (data : List Char)
  | errorCall (msg : List Char) (code : Option (List Char))
deriving DecidableEq

/-- The accumulated per-stream state held by `StreamingService`
(fields `currentMessage`, `currentSources`, `currentCitations`,
`currentClaims`, `currentClaimsGroup`, and `connectionStatus.state` /
`.connected`). -/
structure ServiceState where
  connState : SSEConnState
  connected : Bool
  currentMessage : List Char
  currentSources : List (List SourceItem)
  currentCitations : List CitationItem
  currentClaims : List ClaimItem
  currentClaimsGroup : List (List ClaimItem)
deriving DecidableEq

/-- State of a freshly constructed `StreamingService` (constructor,
lines 94–103 of the service). -/
def initialServiceState : ServiceState :=
  { connState := .disconnected
    connected := false
    currentMessage := []
    currentSources := []
    currentCitations := []
    currentClaims := []
    currentClaimsGroup := [] }

/-- Model of `StreamingService.updateConnectionState`: assigns the state only when it
changes, maintaining the derived `connected` flag. -/
def updateConnectionState (s : ServiceState) (st : SSEConnState) : ServiceState :=
  if s.connState = st then s
  else { s with connState := st, connected := decide (st = .connected) }

/-- Model of `StreamingService.handleSSEEvent` together with the per-type
`handle*Event` helpers: updates the accumulated state and returns the
handler emissions of this event.  `start`, `heartbeat` and unknown events do
not touch accumulated state; `done` drives the connection state to
`disconnected`; `error` invokes `onError`. -/
def handleSSEEvent (s : ServiceState) : SSEEvent → ServiceState × List Emit
  | .start _ _ => (s, [])
  | .token content => ({ s with currentMessage := s.currentMessage ++ content }, [])
  | .sources srcs => ({ s with currentSources := s.currentSources ++ [srcs] }, [])
  | .claims cs => ({ s with currentClaimsGroup := s.currentClaimsGroup ++ [cs] }, [])
  | .citation c => ({ s with currentCitations := s.currentCitations ++ [c] }, [])
  | .claim c => ({ s with currentClaims := s.currentClaims ++ [c] }, [])
  | .done => (updateConnectionState s .disconnected, [])
  | .error msg code _ => (s, [.errorCall msg code])
  | .heartbeat => (s, [])
  | .unknown => (s, [])

/-- The whitespace characters removed by JavaScript `String.prototype.trim`
(the ASCII ones plus NBSP, BOM and the Unicode line separators; the exotic
`Zs` code points never occur in the streams considered here). -/
def isJsWhitespace (c : Char) : Bool :=
  c = ' ' ∨ c = '\t' ∨ c = '\n' ∨ c = '\r' ∨
  c = Char.ofNat 11 ∨ c = Char.ofNat 12 ∨
  c = Char.ofNat 0xA0 ∨ c = Char.ofNat 0xFEFF ∨
  c = Char.ofNat 0x2028 ∨ c = Char.ofNat 0x2029

/-- JavaScript `line.trim()`. -/
def trimChars (l : List Char) : List Char :=
  ((l.dropWhile isJsWhitespace).reverse.dropWhile isJsWhitespace).reverse

/-- The `data: ` field marker (with its trailing blank). -/
def dataFieldMark : List Char := 'd' :: 'a' :: 't' :: 'a' :: ':' :: ' ' :: []

/-- The literal `[DONE]` terminator payload. -/
def doneLiteral : List Char := '[' :: 'D' :: 'O' :: 'N' :: 'E' :: ']' :: []

/-- The fixed `onError` argument used for malformed JSON
(message `Failed to parse streaming data`, code `PARSE_ERROR`). -/
def parseErrorEmit : Emit :=
  .errorCall ("Failed to parse streaming data".toList) (some ("PARSE_ERROR".toList))

/-- Model of `StreamingService.processSSELine`: trims the line, skips blanks and
comments, recognises `data: ` lines, handles the `[DONE]` terminator, and
otherwise parses the payload and dispatches the event; a payload that fails
to parse reports a parse error and nothing else. -/
def processSSELine (parse : List Char → Option SSEEvent) (s : ServiceState)
    (line : List Char) : ServiceState × List Emit :=
  let trimmedLine := trimChars line
  if trimmedLine.isEmpty then (s, [])
  else if trimmedLine.head? = some ':' then (s, [])
  else if dataFieldMark.isPrefixOf trimmedLine then
    let data := trimmedLine.drop 6
    if data = doneLiteral then (updateConnectionState s .disconnected, [])
    else
      match parse data with
      | some ev =>
          let r := handleSSEEvent s ev
          (r.1, .payloadAttempt data :: r.2)
      | none => (s, [.payloadAttempt data, parseErrorEmit])
  else (s, [])

/-- Folding `processSSELine` over a list of complete lines, accumulating the
emission trace (the `for (const line of lines)` loop of `processStream`). -/
def processLines (parse : List Char → Option SSEEvent)
    (s : ServiceState × List Emit) (lines : List (List Char)) :
    ServiceState × List Emit :=
  lines.foldl (fun acc l =>
    let r := processSSELine parse acc.1 l
    (r.1, acc.2 ++ r.2)) s

/-! ## WHATWG streaming UTF-8 decoder (`new TextDecoder()`, used with
`decoder.decode(value, «stream: true»)` in `processStream`).

The per-byte state machine below is the UTF-8 decoder of the WHATWG
Encoding standard: `codePoint`, `bytesSeen`, `bytesNeeded` and the
lower/upper boundaries for the next continuation byte, plus the
leading-BOM removal performed by `TextDecoder` (default `ignoreBOM`
is `false`, so the first decoded code point is dropped when it is
U+FEFF). -/

/-- The replacement character U+FFFD emitted for invalid input. -/
def replacementChar : Char := Char.ofNat 0xFFFD

/-- Decoder state of the WHATWG streaming UTF-8 decoder.  `atStart` is true
while no code point has been emitted yet (BOM removal). -/
structure DecoderState where
  codePoint : Nat
  bytesSeen : Nat
  bytesNeeded : Nat
  lowerBoundary : Nat
  upperBoundary : Nat
  atStart : Bool
deriving DecidableEq

/-- Initial `TextDecoder` state. -/
def initDecoder : DecoderState :=
  { codePoint := 0, bytesSeen := 0, bytesNeeded := 0
    lowerBoundary := 0x80, upperBoundary := 0xBF, atStart := true }

/-- Reset the multi-byte bookkeeping (the reset steps of the standard,
to 0 / 0x80 / 0xBF), keeping `atStart`. -/
def resetDecoder (d : DecoderState) : DecoderState :=
  { d with codePoint := 0, bytesSeen := 0, bytesNeeded := 0
           lowerBoundary := 0x80, upperBoundary := 0xBF }

/-- Handle a byte arriving while `bytesNeeded = 0` (an ASCII byte, a lead
byte, or an invalid byte producing U+FFFD). -/
def decodeLeadByte (d : DecoderState) (b : Nat) : DecoderState × List Char :=
  if b ≤ 0x7F then (resetDecoder d, [Char.ofNat b])
  else if 0xC2 ≤ b ∧ b ≤ 0xDF then
    ({ resetDecoder d with bytesNeeded := 1, codePoint := b &&& 0x1F }, [])
  else if 0xE0 ≤ b ∧ b ≤ 0xEF then
    ({ resetDecoder d with
        bytesNeeded := 2, codePoint := b &&& 0xF
        lowerBoundary := if b = 0xE0 then 0xA0 else 0x80
        upperBoundary := if b = 0xED then 0x9F else 0xBF }, [])
  else if 0xF0 ≤ b ∧ b ≤ 0xF4 then
    ({ resetDecoder d with
        bytesNeeded := 3, codePoint := b &&& 0x7
        lowerBoundary := if b = 0xF0 then 0x90 else 0x80
        upperBoundary := if b = 0xF4 then 0x8F else 0xBF }, [])
  else (resetDecoder d, [replacementChar])

/-- One byte of the WHATWG UTF-8 decoder, without BOM handling. -/
def decodeByteCore (d : DecoderState) (b : Nat) : DecoderState × List Char :=
  if d.bytesNeeded = 0 then decodeLeadByte d b
  else if d.lowerBoundary ≤ b ∧ b ≤ d.upperBoundary then
    let cp := (d.codePoint <<< 6) ||| (b &&& 0x3F)
    if d.bytesSeen + 1 = d.bytesNeeded then (resetDecoder d, [Char.ofNat cp])
    else ({ d with codePoint := cp, bytesSeen := d.bytesSeen + 1
                   lowerBoundary := 0x80, upperBoundary := 0xBF }, [])
  else
    -- invalid continuation byte: emit U+FFFD and reprocess `b` as a lead byte
    let r := decodeLeadByte (resetDecoder d) b
    (r.1, replacementChar :: r.2)

/-- One byte of `TextDecoder`, including removal of a leading U+FEFF. -/
def decodeByte (d : DecoderState) (b : Nat) : DecoderState × List Char :=
  let r := decodeByteCore d b
  if d.atStart then
    match r.2 with
    | [] => (r.1, [])
    | c :: rest =>
        ({ r.1 with atStart := false },
         if c = Char.ofNat 0xFEFF then rest else c :: rest)
  else (r.1, r.2)

/-- Model of `decoder.decode(value, «stream: true»)`: feed a whole chunk of bytes,
returning the new decoder state and the decoded text. -/
def decodeChunk (d : DecoderState) (bytes : List Nat) : DecoderState × List Char :=
  bytes.foldl (fun acc b =>
    let r := decodeByte acc.1 b
    (r.1, acc.2 ++ r.2)) (d, [])

/-! ## Chunked stream processing (`StreamingService.processStream`) -/

/-- Splitting a character list at `'\n'`, the model of JavaScript
`buffer.split('\n')` (always returns at least one, possibly empty,
segment). -/
def splitLines : List Char → List (List Char)
  | [] => [[]]
  | c :: rest =>
      if c = '\n' then [] :: splitLines rest
      else (splitLines rest).modifyHead (c :: ·)

/-- The local state of the `processStream` read loop: the `TextDecoder`,
the carried incomplete line (`buffer`), the service state, and the emission
trace so far. -/
structure ProcState where
  decoder : DecoderState
  buffer : List Char
  service : ServiceState
  emits : List Emit
deriving DecidableEq

/-- One iteration of the `processStream` read loop on a received chunk:
decode it statefully, append to the line buffer, split on `'\n'`, keep the
trailing incomplete line, and process every complete line. -/
def processChunk (parse : List Char → Option SSEEvent) (st : ProcState)
    (bytes : List Nat) : ProcState :=
  let dec := decodeChunk st.decoder bytes
  let whole := st.buffer ++ dec.2
  let lines := splitLines whole
  let r := processLines parse (st.service, st.emits) lines.dropLast
  { decoder := dec.1, buffer := lines.getLastD [], service := r.1, emits := r.2 }

/-- The state at the top of `processStream`: fresh decoder, empty buffer,
connection driven to `connected`. -/
def initProcState : ProcState :=
  { decoder := initDecoder, buffer := []
    service := updateConnectionState initialServiceState .connected
    emits := [] }

/-- The `processStream` read loop applied to a list of chunks. -/
def processChunks (parse : List Char → Option SSEEvent) (st : ProcState)
    (chunks : List (List Nat)) : ProcState :=
  chunks.foldl (processChunk parse) st

/-- Model of `StreamingService.processStream` on a response body that delivers the
given chunks and then reaches natural end-of-input (`done` from the
reader): the final loop iteration drives the connection state to
`disconnected`. -/
def processStream (parse : List Char → Option SSEEvent)
    (chunks : List (List Nat)) : ProcState :=
  let st := processChunks parse initProcState chunks
  { st with service := updateConnectionState st.service .disconnected }

/-! ## Error recovery (`src/frontend/src/services/error-recovery.ts`) -/

/-- The `CircuitBreakerState` enum. -/
inductive CircuitBreakerState where
  | closed
  | open
  | half_open
deriving DecidableEq

/-- The `RecoveryStrategy` enum. -/
inductive RecoveryStrategy where
  | immediate_retry
  | exponential_backoff
  | linear_backoff
  | circuit_breaker
  | fallback
  | none
deriving DecidableEq

/-- The `NetworkQuality` enum. -/
inductive NetworkQuality where
  | excellent
  | good
  | fair
  | poor
  | offline
deriving DecidableEq

/-- The `SSEErrorType` enum. -/
inductive SSEErrorType where
  | connection_failed
  | connection_lost
  | network_error
  | timeout_error
  | server_error
  | auth_error
  | parse_error
  | max_retries_exceeded
deriving DecidableEq

/-- Error severity levels. -/
inductive Severity where
  | low
  | medium
  | high
  | critical
deriving DecidableEq

/-- The `ErrorClassification` record. -/
structure ErrorClassification where
  type : SSEErrorType
  severity : Severity
  retryable : Bool
  strategy : RecoveryStrategy
  maxRetries : Nat
  baseDelay : ℚ
deriving DecidableEq

/-- The `ErrorRecoveryConfig` record.  All delays and timeouts are rationals
(JavaScript numbers). -/
structure ErrorRecoveryConfig where
  maxRetries : Nat
  initialDelay : ℚ
  maxDelay : ℚ
  backoffMultiplier : ℚ
  jitterEnabled : Bool
  circuitBreakerThreshold : Nat
  circuitBreakerTimeout : ℚ
deriving DecidableEq

/-- The table `DEFAULT_RECOVERY_CONFIG` (the monitoring interval and fallback flag
play no role in the modelled code paths). -/
def defaultRecoveryConfig : ErrorRecoveryConfig :=
  { maxRetries := 5
    initialDelay := 1000
    maxDelay := 30000
    backoffMultiplier := 2
    jitterEnabled := true
    circuitBreakerThreshold := 5
    circuitBreakerTimeout := 60000 }

/-- The static table `ERROR_CLASSIFICATION_RULES`. -/
def errorClassificationRules : SSEErrorType → ErrorClassification
  | .connection_failed =>
      { type := .connection_failed, severity := .high, retryable := true
        strategy := .exponential_backoff, maxRetries := 5, baseDelay := 2000 }
  | .connection_lost =>
      { type := .connection_lost, severity := .medium, retryable := true
        strategy := .exponential_backoff, maxRetries := 3, baseDelay := 1000 }
  | .network_error =>
      { type := .network_error, severity := .high, retryable := true
        strategy := .circuit_breaker, maxRetries := 3, baseDelay := 5000 }
  | .timeout_error =>
      { type := .timeout_error, severity := .medium, retryable := true
        strategy := .linear_backoff, maxRetries := 3, baseDelay := 2000 }
  | .server_error =>
      { type := .server_error, severity := .high, retryable := true
        strategy := .exponential_backoff, maxRetries := 2, baseDelay := 3000 }
  | .auth_error =>
      { type := .auth_error, severity := .critical, retryable := false
        strategy := .none, maxRetries := 0, baseDelay := 0 }
  | .parse_error =>
      { type := .parse_error, severity := .low, retryable := false
        strategy := .none, maxRetries := 0, baseDelay := 0 }
  | .max_retries_exceeded =>
      { type := .max_retries_exceeded, severity := .critical, retryable := false
        strategy := .fallback, maxRetries := 0, baseDelay := 0 }

/-- Model of `ErrorRecoveryManager.classifyError`: the static table entry, degraded
when the current network quality (`networkMetrics?.quality`, `none` when no
probe has completed) is `poor` or `offline`. -/
def classifyError (quality : Option NetworkQuality) (t : SSEErrorType) :
    ErrorClassification :=
  let baseClassification := errorClassificationRules t
  if quality = some .poor then
    { baseClassification with
        strategy := .linear_backoff
        maxRetries := max 1 (baseClassification.maxRetries / 2)
        baseDelay := baseClassification.baseDelay * 2 }
  else if quality = some .offline then
    { baseClassification with retryable := false, strategy := .fallback }
  else baseClassification

/-- The `delay` computed by `ErrorRecoveryManager.calculateDelay` before
jitter is applied (the `switch` on the strategy). -/
def calculateDelayPre (cfg : ErrorRecoveryConfig) (cb : CircuitBreakerState)
    (c : ErrorClassification) (attemptCount : Nat) : ℚ :=
  match c.strategy with
  | .immediate_retry => 0
  | .linear_backoff => c.baseDelay * attemptCount
  | .exponential_backoff => c.baseDelay * cfg.backoffMultiplier ^ (attemptCount - 1)
  | .circuit_breaker =>
      if cb = .open then cfg.circuitBreakerTimeout else c.baseDelay
  | _ => c.baseDelay

/-- Model of `ErrorRecoveryManager.calculateDelay`: the strategy delay, plus up to
10% jitter (`rand` models the `Math.random()` draw), clamped to the
configured maximum. -/
def calculateDelay (cfg : ErrorRecoveryConfig) (cb : CircuitBreakerState)
    (c : ErrorClassification) (attemptCount : Nat) (rand : ℚ) : ℚ :=
  let delay := calculateDelayPre cfg cb c attemptCount
  let delay :=
    if cfg.jitterEnabled ∧ 0 < delay then delay + delay * (1 / 10) * rand
    else delay
  min delay cfg.maxDelay

/-- The `RecoveryAttempt` record (the `error` payload of a failed attempt is not
modelled). -/
structure RecoveryAttempt where
  attempt : Nat
  strategy : RecoveryStrategy
  delay : ℚ
  timestamp : ℚ
  success : Bool
deriving DecidableEq

/-- The mutable circuit-breaker state of `ErrorRecoveryManager`, plus the
trace of `onCircuitBreakerStateChange` listener invocations (`cbEvents`). -/
structure RecoveryState where
  circuitBreakerState : CircuitBreakerState
  failureCount : Nat
  lastFailureTime : ℚ
  recoveryAttempts : List RecoveryAttempt
  cbEvents : List CircuitBreakerState
deriving DecidableEq

/-- State of a freshly constructed `ErrorRecoveryManager`. -/
def initialRecoveryState : RecoveryState :=
  { circuitBreakerState := .closed, failureCount := 0, lastFailureTime := 0
    recoveryAttempts := [], cbEvents := [] }

/-- Model of `setCircuitBreakerState`: assigns (and notifies the listener) only when
the state actually changes. -/
def setCircuitBreakerState (s : RecoveryState) (st : CircuitBreakerState) :
    RecoveryState :=
  if s.circuitBreakerState = st then s
  else { s with circuitBreakerState := st, cbEvents := s.cbEvents ++ [st] }

/-- Model of `incrementFailureCount`: bump the consecutive failure count and trip the
breaker (recording the failure time) when it reaches the threshold. -/
def incrementFailureCount (cfg : ErrorRecoveryConfig) (s : RecoveryState)
    (now : ℚ) : RecoveryState :=
  let s := { s with failureCount := s.failureCount + 1 }
  if cfg.circuitBreakerThreshold ≤ s.failureCount then
    let s := setCircuitBreakerState s .open
    { s with lastFailureTime := now }
  else s

/-- Model of `handleMaxRetriesExceeded`: force the breaker open and record the
failure time. -/
def handleMaxRetriesExceeded (s : RecoveryState) (now : ℚ) : RecoveryState :=
  let s := setCircuitBreakerState s .open
  { s with lastFailureTime := now }

/-- Outcome of one level of `attemptRecovery`: either the call returns with
the given success value, or it recurses with `attemptCount + 1`. -/
inductive AttemptOutcome where
  | done (success : Bool)
  | retry
deriving DecidableEq

/-- One level of `ErrorRecoveryManager.attemptRecovery` (everything up to,
but not including, the tail-recursive `return this.attemptRecovery(...)`):
the retryable/budget gate, the circuit-breaker gate, the half-open probe,
one invocation of `recoveryFn` (whose success is `fnSucceeds`), and the
bookkeeping of both its branches.  `now` is the `Date.now()` reading of
this level and `rand` the jitter draw; the final `Nat` counts invocations
of `recoveryFn`. -/
def attemptRecoveryStep (cfg : ErrorRecoveryConfig)
    (quality : Option NetworkQuality) (t : SSEErrorType) (fnSucceeds : Bool)
    (now rand : ℚ) (s : RecoveryState) (attemptCount : Nat) :
    AttemptOutcome × RecoveryState × Nat :=
  let classification := classifyError quality t
  if classification.retryable = false ∨ classification.maxRetries < attemptCount then
    (.done false, handleMaxRetriesExceeded s now, 0)
  else if s.circuitBreakerState = .open ∧
      now - s.lastFailureTime < cfg.circuitBreakerTimeout then
    (.done false, s, 0)
  else
    let s := if s.circuitBreakerState = .open
      then setCircuitBreakerState s .half_open else s
    let delay := calculateDelay cfg s.circuitBreakerState classification attemptCount rand
    let attempt : RecoveryAttempt :=
      { attempt := attemptCount, strategy := classification.strategy
        delay := delay, timestamp := now, success := false }
    if fnSucceeds then
      let s := { s with
        recoveryAttempts := s.recoveryAttempts ++ [{ attempt with success := true }]
        failureCount := 0 }
      let s := if s.circuitBreakerState = .half_open
        then setCircuitBreakerState s .closed else s
      (.done true, s, 1)
    else
      let s := { s with recoveryAttempts := s.recoveryAttempts ++ [attempt] }
      let s := incrementFailureCount cfg s now
      (.retry, s, 1)

/-- Model of `ErrorRecoveryManager.attemptRecovery`: iterate `attemptRecoveryStep`,
incrementing the attempt count after each failed invocation of
`recoveryFn`.  `fnSucceeds k`, `now k` and `rand k` are the recovery
function result, clock reading and jitter draw at attempt number `k`.
Returns the overall result, the final state and the total number of
`recoveryFn` invocations. -/
def attemptRecovery (cfg : ErrorRecoveryConfig)
    (quality : Option NetworkQuality) (t : SSEErrorType)
    (fnSucceeds : Nat → Bool) (now rand : Nat → ℚ) (s : RecoveryState)
    (attemptCount : Nat) : Bool × RecoveryState × Nat :=
  match h : attemptRecoveryStep cfg quality t (fnSucceeds attemptCount)
      (now attemptCount) (rand attemptCount) s attemptCount with
  | (.done b, s', k) => (b, s', k)
  | (.retry, s', k) =>
      have hle : attemptCount ≤ (classifyError quality t).maxRetries := by
        by_contra hgt
        unfold attemptRecoveryStep at h
        rw [if_pos (Or.inr (by omega))] at h
        exact absurd (congrArg Prod.fst h) (by simp)
      let r := attemptRecovery cfg quality t fnSucceeds now rand s' (attemptCount + 1)
      (r.1, r.2.1, k + r.2.2)
termination_by (classifyError quality t).maxRetries + 1 - attemptCount
decreasing_by omega

/-- Per-character view of the line buffering of `processStream`: a newline
flushes the buffer through `processSSELine`, any other character extends
the buffer. -/
def charStep (parse : List Char → Option SSEEvent)
    (st : List Char × ServiceState × List Emit) (c : Char) :
    List Char × ServiceState × List Emit :=
  if c = '\n' then
    let r := processSSELine parse st.2.1 st.1
    ([], r.1, st.2.2 ++ r.2)
  else (st.1 ++ [c], st.2.1, st.2.2)

/-- Feeding a run of decoded characters through the per-character view. -/
def feedChars (parse : List Char → Option SSEEvent)
    (st : List Char × ServiceState × List Emit) (cs : List Char) :
    List Char × ServiceState × List Emit :=
  cs.foldl (charStep parse) st

/-- Per-byte view of one read-loop iteration: decode the byte, feed any
decoded characters through the line buffering. -/
def byteStep (parse : List Char → Option SSEEvent) (st : ProcState) (b : Nat) :
    ProcState :=
  let r := decodeByte st.decoder b
  let f := feedChars parse (st.buffer, st.service, st.emits) r.2
  { decoder := r.1, buffer := f.1, service := f.2.1, emits := f.2.2 }

/-- Folding `handleSSEEvent` over a list of already-parsed events delivered
to the dispatcher, accumulating emissions. -/
def dispatchEvents (st : ServiceState × List Emit) (evs : List SSEEvent) :
    ServiceState × List Emit :=
  evs.foldl (fun acc ev =>
    let r := handleSSEEvent acc.1 ev
    (r.1, acc.2 ++ r.2)) st

/-- UTF-8 bytes of an ASCII-only string. -/
def asciiBytes (s : String) : List Nat := s.toList.map Char.toNat

/-- A sample payload interpretation: the payload `tok` parses to a `token`
event with content `x`; everything else is malformed. -/
def tokenOnlyParse (p : List Char) : Option SSEEvent :=
  if p = "tok".toList then some (SSEEvent.token ("x".toList)) else none

/-! ## Structural lemmas about line splitting and chunk feeding -/

theorem splitLines_ne_nil (l : List Char) : splitLines l ≠ [] := by
  induction l with
  | nil => simp [splitLines]
  | cons c rest ih =>
      by_cases hc : c = '\n'
      · simp [splitLines, hc]
      · simp only [splitLines, if_neg hc]
        cases h : splitLines rest with
        | nil => exact absurd h ih
        | cons a t => simp [List.modifyHead]

theorem splitLines_no_nl (l : List Char) (h : '\n' ∉ l) : splitLines l = [l] := by
  induction l with
  | nil => rfl
  | cons c rest ih =>
      have hc : c ≠ '\n' := fun hcn => h (hcn ▸ List.mem_cons_self c rest)
      have hrest : '\n' ∉ rest := fun hm => h (List.mem_cons_of_mem c hm)
      simp [splitLines, if_neg hc, ih hrest, List.modifyHead]

theorem splitLines_append_nl (a b : List Char) (h : '\n' ∉ a) :
    splitLines (a ++ '\n' :: b) = a :: splitLines b := by
  induction a with
  | nil => simp [splitLines]
  | cons c a' ih =>
      have hc : c ≠ '\n' := fun hcn => h (hcn ▸ List.mem_cons_self c a')
      have ha' : '\n' ∉ a' := fun hm => h (List.mem_cons_of_mem c hm)
      simp only [List.cons_append, splitLines, if_neg hc, List.append_eq]
      rw [ih ha']
      rfl

theorem mem_splitLines_no_nl (l : List Char) :
    ∀ x ∈ splitLines l, '\n' ∉ x := by
  induction l with
  | nil => intro x hx; simp [splitLines] at hx; simp [hx]
  | cons c rest ih =>
      intro x hx
      by_cases hc : c = '\n'
      · simp only [splitLines, if_pos hc] at hx
        rcases List.mem_cons.mp hx with rfl | hx
        · simp
        · exact ih x hx
      · simp only [splitLines, if_neg hc] at hx
        obtain ⟨a, t, hsp⟩ := List.exists_cons_of_ne_nil (splitLines_ne_nil rest)
        rw [hsp, List.modifyHead] at hx
        rcases List.mem_cons.mp hx with rfl | hmem
        · intro hm
          rcases List.mem_cons.mp hm with hceq | hmem2
          · exact hc hceq.symm
          · exact ih a (hsp ▸ List.mem_cons_self a t) hmem2
        · exact ih x (hsp ▸ List.mem_cons_of_mem a hmem)

theorem getLastD_mem_of_ne_nil {α : Type} (l : List α) (d : α) (h : l ≠ []) :
    l.getLastD d ∈ l := by
  induction l generalizing d with
  | nil => exact absurd rfl h
  | cons a t ih =>
      cases t with
      | nil => simp [List.getLastD]
      | cons b t' =>
          have hmem := ih a (by simp)
          simp only [List.getLastD] at hmem ⊢
          exact List.mem_cons_of_mem a hmem

theorem getLastD_irrel {α : Type} (l : List α) (d d' : α) (h : l ≠ []) :
    l.getLastD d = l.getLastD d' := by
  cases l with
  | nil => exact absurd rfl h
  | cons a t => simp [List.getLastD]

theorem feedChars_append (parse : List Char → Option SSEEvent)
    (st : List Char × ServiceState × List Emit) (cs ds : List Char) :
    feedChars parse st (cs ++ ds) = feedChars parse (feedChars parse st cs) ds := by
  simp [feedChars, List.foldl_append]

/-- The split-then-process form of a chunk of text agrees with the
per-character fold, provided the carried buffer holds no newline. -/
theorem feedChars_eq_split (parse : List Char → Option SSEEvent) :
    ∀ (text buf : List Char) (sv : ServiceState) (es : List Emit),
      '\n' ∉ buf →
      feedChars parse (buf, sv, es) text =
        ((splitLines (buf ++ text)).getLastD [],
         processLines parse (sv, es) (splitLines (buf ++ text)).dropLast) := by
  intro text
  induction text with
  | nil =>
      intro buf sv es hbuf
      simp [feedChars, splitLines_no_nl buf hbuf, List.getLastD, processLines]
  | cons c cs ih =>
      intro buf sv es hbuf
      by_cases hc : c = '\n'
      · subst hc
        have h1 : feedChars parse (buf, sv, es) ('\n' :: cs) =
            feedChars parse
              ([], (processSSELine parse sv buf).1,
                es ++ (processSSELine parse sv buf).2) cs := by
          simp [feedChars, charStep]
        rw [h1, ih [] _ _ (by simp), splitLines_append_nl buf cs hbuf]
        obtain ⟨a, t, hsp⟩ := List.exists_cons_of_ne_nil (splitLines_ne_nil cs)
        simp only [hsp, List.nil_append, List.getLastD_cons,
          List.dropLast_cons_of_ne_nil (show a :: t ≠ [] from by simp),
          Prod.mk.injEq]
        exact ⟨trivial, by simp [processLines]⟩
      · have h1 : feedChars parse (buf, sv, es) (c :: cs) =
            feedChars parse (buf ++ [c], sv, es) cs := by
          simp [feedChars, charStep, if_neg hc]
        have hbuf' : '\n' ∉ buf ++ [c] := by
          intro hm
          rcases List.mem_append.mp hm with hm | hm
          · exact hbuf hm
          · simp at hm; exact hc hm.symm
        rw [h1, ih (buf ++ [c]) sv es hbuf']
        simp [List.append_assoc]

theorem decodeChunk_acc (bytes : List Nat) :
    ∀ (d : DecoderState) (out : List Char),
      bytes.foldl (fun acc b =>
          let r := decodeByte acc.1 b
          (r.1, acc.2 ++ r.2)) (d, out) =
        ((decodeChunk d bytes).1, out ++ (decodeChunk d bytes).2) := by
  induction bytes with
  | nil => intro d out; simp [decodeChunk]
  | cons b bs ih =>
      intro d out
      simp only [decodeChunk, List.foldl_cons]
      rw [ih (decodeByte d b).1 (out ++ (decodeByte d b).2),
        ih (decodeByte d b).1 ([] ++ (decodeByte d b).2)]
      simp [List.append_assoc]

theorem decodeChunk_cons (d : DecoderState) (b : Nat) (bs : List Nat) :
    decodeChunk d (b :: bs) =
      ((decodeChunk (decodeByte d b).1 bs).1,
       (decodeByte d b).2 ++ (decodeChunk (decodeByte d b).1 bs).2) := by
  simp only [decodeChunk, List.foldl_cons]
  rw [decodeChunk_acc bs (decodeByte d b).1 ([] ++ (decodeByte d b).2)]
  simp [decodeChunk]

/-- The per-byte fold computes exactly the decode-then-feed composition of
one read-loop iteration. -/
theorem byteFold_eq (parse : List Char → Option SSEEvent) :
    ∀ (bytes : List Nat) (st : ProcState),
      bytes.foldl (byteStep parse) st =
        { decoder := (decodeChunk st.decoder bytes).1
          buffer := (feedChars parse (st.buffer, st.service, st.emits)
            (decodeChunk st.decoder bytes).2).1
          service := (feedChars parse (st.buffer, st.service, st.emits)
            (decodeChunk st.decoder bytes).2).2.1
          emits := (feedChars parse (st.buffer, st.service, st.emits)
            (decodeChunk st.decoder bytes).2).2.2 } := by
  intro bytes
  induction bytes with
  | nil =>
      intro st
      simp [decodeChunk, feedChars]
  | cons b bs ih =>
      intro st
      rw [List.foldl_cons, ih (byteStep parse st b), decodeChunk_cons]
      simp only [byteStep, feedChars_append]

/-- A read-loop iteration (`processChunk`) is the per-byte fold, provided
the carried buffer holds no newline. -/
theorem processChunk_eq_byteFold (parse : List Char → Option SSEEvent)
    (st : ProcState) (bytes : List Nat) (h : '\n' ∉ st.buffer) :
    processChunk parse st bytes = bytes.foldl (byteStep parse) st := by
  rw [byteFold_eq]
  unfold processChunk
  rw [feedChars_eq_split parse (decodeChunk st.decoder bytes).2 st.buffer
    st.service st.emits h]

/-- The carried buffer never contains a newline. -/
theorem processChunk_buffer_no_nl (parse : List Char → Option SSEEvent)
    (st : ProcState) (bytes : List Nat) :
    '\n' ∉ (processChunk parse st bytes).buffer := by
  unfold processChunk
  exact mem_splitLines_no_nl _ _
    (getLastD_mem_of_ne_nil _ [] (splitLines_ne_nil _))

/-- Chunk-boundary invariance of one loop iteration: processing two chunks
in sequence equals processing their concatenation. -/
theorem processChunk_append (parse : List Char → Option SSEEvent)
    (st : ProcState) (b1 b2 : List Nat) (h : '\n' ∉ st.buffer) :
    processChunk parse (processChunk parse st b1) b2 =
      processChunk parse st (b1 ++ b2) := by
  rw [processChunk_eq_byteFold parse st b1 h,
    processChunk_eq_byteFold parse _ b2
      (processChunk_eq_byteFold parse st b1 h ▸ processChunk_buffer_no_nl parse st b1),
    processChunk_eq_byteFold parse st (b1 ++ b2) h, List.foldl_append]

/-- Processing a chunk list equals processing the single concatenated
chunk. -/
theorem processChunks_join (parse : List Char → Option SSEEvent) :
    ∀ (chunks : List (List Nat)) (st : ProcState), '\n' ∉ st.buffer →
      processChunks parse st chunks = processChunk parse st chunks.flatten := by
  intro chunks
  induction chunks with
  | nil =>
      intro st h
      show st = processChunk parse st []
      rw [processChunk_eq_byteFold parse st [] h]
      rfl
  | cons c cs ih =>
      intro st h
      show processChunks parse (processChunk parse st c) cs = _
      rw [ih (processChunk parse st c) (processChunk_buffer_no_nl parse st c),
        processChunk_append parse st c cs.flatten h]
      rfl

/-- C1: for every way of splitting a byte stream into chunks (including
splits inside a line or inside a UTF-8 multi-byte character), feeding the
chunks one at a time through the stream processor produces exactly the same
final state — in particular the same ordered sequence of payloads handed to
`JSON.parse` and hence, for every parse function, the same ordered sequence
of parsed JSON payloads and dispatched events — as feeding the whole stream
as one unsplit chunk. -/
theorem sse_chunk_split_invariance (parse : List Char → Option SSEEvent)
    (chunks : List (List Nat)) :
    processChunks parse initProcState chunks =
      processChunks parse initProcState [chunks.flatten] := by
  rw [processChunks_join parse chunks initProcState (by simp [initProcState])]
  rfl

/-- C2: the accumulated message after any sequence of `token` events is the
previous message followed by the concatenation of their `content` fields in
arrival order; in particular the tokens `Hel`, `lo `, `world` accumulate to
exactly `Hello world`. -/
theorem token_event_accumulation :
    (∀ (s : ServiceState) (es : List Emit) (cs : List (List Char)),
      (dispatchEvents (s, es) (cs.map SSEEvent.token)).1.currentMessage =
        s.currentMessage ++ cs.flatten) ∧
    (dispatchEvents (initialServiceState, [])
      [SSEEvent.token ("Hel".toList), SSEEvent.token ("lo ".toList),
       SSEEvent.token ("world".toList)]).1.currentMessage =
      "Hello world".toList := by
  have hcons : ∀ (st : ServiceState × List Emit) (ev : SSEEvent) (evs : List SSEEvent),
      dispatchEvents st (ev :: evs) =
        dispatchEvents ((handleSSEEvent st.1 ev).1, st.2 ++ (handleSSEEvent st.1 ev).2) evs := by
    intro st ev evs
    simp [dispatchEvents]
  constructor
  · intro s es cs
    induction cs generalizing s es with
    | nil => simp [dispatchEvents]
    | cons c cs ih =>
        rw [List.map_cons, hcons]
        simp only [handleSSEEvent]
        rw [ih]
        simp [List.append_assoc]
  · decide

/-- C7 (amended): when the response body reaches natural end-of-input the
connection manager always treats it as `disconnected` (success), whether or
not a terminal `done` event or `[DONE]` line was seen; no `connection_lost`
failure is raised and no extra error emission is produced at end-of-input. -/
theorem natural_end_disconnected (parse : List Char → Option SSEEvent)
    (chunks : List (List Nat)) :
    (processStream parse chunks).service.connState = SSEConnState.disconnected ∧
    (processStream parse chunks).emits =
      (processChunks parse initProcState chunks).emits := by
  refine ⟨?_, rfl⟩
  show (updateConnectionState (processChunks parse initProcState chunks).service
    SSEConnState.disconnected).connState = SSEConnState.disconnected
  unfold updateConnectionState
  split
  · next h => exact h
  · rfl

/-- C7 (counterexample): a stream delivering a single `token` payload and
then ending naturally — no `done` event and no `[DONE]` line ever seen —
still ends `disconnected` with no error emission at all, where the claim
demands a `connection_lost` failure routed through recovery. -/
theorem natural_end_counterexample :
    (processStream tokenOnlyParse [asciiBytes "data: tok\n"]).service.connState =
      SSEConnState.disconnected ∧
    (processStream tokenOnlyParse [asciiBytes "data: tok\n"]).service.currentMessage =
      "x".toList ∧
    (processStream tokenOnlyParse [asciiBytes "data: tok\n"]).emits =
      [Emit.payloadAttempt ("tok".toList)] := by
  refine ⟨?_, ?_, ?_⟩ <;> decide

/-- C8 (amended): a data line whose payload is the literal `[DONE]`
immediately drives the connection state to `disconnected`, independent of
whether a structured `done` event also arrives; however it does not stop
line processing — subsequent lines of the stream are still processed (and
their payloads dispatched) from the disconnected state. -/
theorem done_literal_disconnects (parse : List Char → Option SSEEvent) :
    (∀ s : ServiceState,
      processSSELine parse s ("data: [DONE]".toList) =
        (updateConnectionState s SSEConnState.disconnected, [])) ∧
    (∀ (s : ServiceState) (es : List Emit) (ls : List (List Char)),
      processLines parse (s, es) ("data: [DONE]".toList :: ls) =
        processLines parse (updateConnectionState s SSEConnState.disconnected, es) ls) := by
  have h1 : ∀ s : ServiceState,
      processSSELine parse s ("data: [DONE]".toList) =
        (updateConnectionState s SSEConnState.disconnected, []) := fun s => rfl
  refine ⟨h1, fun s es ls => ?_⟩
  simp only [processLines, List.foldl_cons, h1, List.append_nil]

/-- C8 (counterexample): after a `data: [DONE]` line the service state is
`disconnected`, yet a later `data:` line of the same stream is still parsed
and dispatched (the accumulated message receives `x`), where the claim says
no further payloads of that stream are dispatched. -/
theorem done_literal_counterexample :
    ((processLines tokenOnlyParse
        (updateConnectionState initialServiceState SSEConnState.connected, [])
        ["data: [DONE]".toList, "data: tok".toList]).1.connState =
      SSEConnState.disconnected) ∧
    ((processLines tokenOnlyParse
        (updateConnectionState initialServiceState SSEConnState.connected, [])
        ["data: [DONE]".toList, "data: tok".toList]).1.currentMessage =
      "x".toList) ∧
    ((processLines tokenOnlyParse
        (updateConnectionState initialServiceState SSEConnState.connected, [])
        ["data: [DONE]".toList, "data: tok".toList]).2 =
      [Emit.payloadAttempt ("tok".toList)]) := by
  refine ⟨?_, ?_, ?_⟩ <;> decide

/-- C9: a data line whose payload is malformed JSON does not abort the
stream: that line only reports one `parse_error` through the error path and
leaves the whole accumulated session state unchanged, and processing of all
subsequent lines continues from the same state exactly as it would have
without the error report of the malformed line. -/
theorem malformed_payload_isolated (parse : List Char → Option SSEEvent)
    (s : ServiceState) (line p : List Char)
    (h1 : trimChars line = dataFieldMark ++ p) (h2 : p ≠ doneLiteral)
    (h3 : parse p = none) :
    processSSELine parse s line = (s, [Emit.payloadAttempt p, parseErrorEmit]) ∧
    ∀ (es : List Emit) (ls : List (List Char)),
      processLines parse (s, es) (line :: ls) =
        processLines parse (s, es ++ [Emit.payloadAttempt p, parseErrorEmit]) ls := by
  have hline : processSSELine parse s line = (s, [Emit.payloadAttempt p, parseErrorEmit]) := by
    unfold processSSELine
    rw [h1]
    rw [if_neg (by simp [dataFieldMark]),
      if_neg (by simp [dataFieldMark]),
      if_pos (List.isPrefixOf_iff_prefix.mpr (List.prefix_append _ _)),
      show (dataFieldMark ++ p).drop 6 = p from List.drop_left dataFieldMark p,
      if_neg h2, h3]
  refine ⟨hline, fun es ls => ?_⟩
  simp only [processLines, List.foldl_cons, hline]

/-! ## Lemmas about the circuit-breaker primitives -/

theorem setCB_state (s : RecoveryState) (st : CircuitBreakerState) :
    (setCircuitBreakerState s st).circuitBreakerState = st := by
  unfold setCircuitBreakerState
  split
  · next h => exact h
  · rfl

theorem setCB_failureCount (s : RecoveryState) (st : CircuitBreakerState) :
    (setCircuitBreakerState s st).failureCount = s.failureCount := by
  unfold setCircuitBreakerState
  split <;> rfl

theorem setCB_lastFailureTime (s : RecoveryState) (st : CircuitBreakerState) :
    (setCircuitBreakerState s st).lastFailureTime = s.lastFailureTime := by
  unfold setCircuitBreakerState
  split <;> rfl

theorem setCB_recoveryAttempts (s : RecoveryState) (st : CircuitBreakerState) :
    (setCircuitBreakerState s st).recoveryAttempts = s.recoveryAttempts := by
  unfold setCircuitBreakerState
  split <;> rfl

theorem setCB_cbEvents_of_ne (s : RecoveryState) (st : CircuitBreakerState)
    (h : s.circuitBreakerState ≠ st) :
    (setCircuitBreakerState s st).cbEvents = s.cbEvents ++ [st] := by
  unfold setCircuitBreakerState
  rw [if_neg h]

theorem handleMax_state (s : RecoveryState) (now : ℚ) :
    (handleMaxRetriesExceeded s now).circuitBreakerState = .open := by
  unfold handleMaxRetriesExceeded
  exact setCB_state s .open

theorem handleMax_lastFailureTime (s : RecoveryState) (now : ℚ) :
    (handleMaxRetriesExceeded s now).lastFailureTime = now := rfl

theorem handleMax_recoveryAttempts (s : RecoveryState) (now : ℚ) :
    (handleMaxRetriesExceeded s now).recoveryAttempts = s.recoveryAttempts := by
  unfold handleMaxRetriesExceeded
  exact setCB_recoveryAttempts s .open

theorem handleMax_failureCount (s : RecoveryState) (now : ℚ) :
    (handleMaxRetriesExceeded s now).failureCount = s.failureCount := by
  unfold handleMaxRetriesExceeded
  exact setCB_failureCount s .open

/-! ## Unfolding lemmas for `attemptRecoveryStep` -/

theorem attemptRecoveryStep_nonretryable {cfg : ErrorRecoveryConfig}
    {quality : Option NetworkQuality} {t : SSEErrorType} {f : Bool}
    {now rand : ℚ} {s : RecoveryState} {a : Nat}
    (h : (classifyError quality t).retryable = false ∨
      (classifyError quality t).maxRetries < a) :
    attemptRecoveryStep cfg quality t f now rand s a =
      (.done false, handleMaxRetriesExceeded s now, 0) := by
  unfold attemptRecoveryStep
  rw [if_pos h]

theorem attemptRecoveryStep_suppressed {cfg : ErrorRecoveryConfig}
    {quality : Option NetworkQuality} {t : SSEErrorType} {f : Bool}
    {now rand : ℚ} {s : RecoveryState} {a : Nat}
    (hr : (classifyError quality t).retryable = true)
    (hle : a ≤ (classifyError quality t).maxRetries)
    (ho : s.circuitBreakerState = .open)
    (ht : now - s.lastFailureTime < cfg.circuitBreakerTimeout) :
    attemptRecoveryStep cfg quality t f now rand s a = (.done false, s, 0) := by
  unfold attemptRecoveryStep
  rw [if_neg (by rw [hr]; simp; omega), if_pos ⟨ho, ht⟩]

theorem attemptRecovery_done {cfg : ErrorRecoveryConfig}
    {quality : Option NetworkQuality} {t : SSEErrorType} {f : Nat → Bool}
    {now rand : Nat → ℚ} {s : RecoveryState} {a : Nat} {b : Bool}
    {s' : RecoveryState} {k : Nat}
    (h : attemptRecoveryStep cfg quality t (f a) (now a) (rand a) s a =
      (.done b, s', k)) :
    attemptRecovery cfg quality t f now rand s a = (b, s', k) := by
  unfold attemptRecovery
  split
  · next b2 s2 k2 heq =>
      have hh := h.symm.trans heq
      injection hh with h1 h2
      injection h2 with h2 h3
      injection h1 with h1
      subst h1; subst h2; subst h3; rfl
  · next s2 k2 heq =>
      have hh := h.symm.trans heq
      injection hh with h1 h2
      exact absurd h1 (by simp)

theorem attemptRecovery_retry {cfg : ErrorRecoveryConfig}
    {quality : Option NetworkQuality} {t : SSEErrorType} {f : Nat → Bool}
    {now rand : Nat → ℚ} {s : RecoveryState} {a : Nat}
    {s' : RecoveryState} {k : Nat}
    (h : attemptRecoveryStep cfg quality t (f a) (now a) (rand a) s a =
      (.retry, s', k)) :
    attemptRecovery cfg quality t f now rand s a =
      ((attemptRecovery cfg quality t f now rand s' (a + 1)).1,
       (attemptRecovery cfg quality t f now rand s' (a + 1)).2.1,
       k + (attemptRecovery cfg quality t f now rand s' (a + 1)).2.2) := by
  conv_lhs => unfold attemptRecovery
  split
  · next b2 s2 k2 heq =>
      have hh := h.symm.trans heq
      injection hh with h1 h2
      exact absurd h1 (by simp)
  · next s2 k2 heq =>
      have hh := h.symm.trans heq
      injection hh with h1 h2
      injection h2 with h2 h3
      subst h2; subst h3; rfl

theorem attemptRecoveryStep_run {cfg : ErrorRecoveryConfig}
    {quality : Option NetworkQuality} {t : SSEErrorType} {f : Bool}
    {now rand : ℚ} {s : RecoveryState} {a : Nat}
    (hr : (classifyError quality t).retryable = true)
    (hle : a ≤ (classifyError quality t).maxRetries)
    (hgate : ¬(s.circuitBreakerState = .open ∧
      now - s.lastFailureTime < cfg.circuitBreakerTimeout)) :
    attemptRecoveryStep cfg quality t f now rand s a =
      (let s1 := if s.circuitBreakerState = .open
        then setCircuitBreakerState s .half_open else s
       let att : RecoveryAttempt :=
         { attempt := a, strategy := (classifyError quality t).strategy
           delay := calculateDelay cfg s1.circuitBreakerState
             (classifyError quality t) a rand
           timestamp := now, success := false }
       if f then
         (.done true,
          (let s2 := { s1 with
             recoveryAttempts := s1.recoveryAttempts ++ [{ att with success := true }]
             failureCount := 0 }
           if s2.circuitBreakerState = .half_open
             then setCircuitBreakerState s2 .closed else s2), 1)
       else
         (.retry,
          incrementFailureCount cfg
            { s1 with recoveryAttempts := s1.recoveryAttempts ++ [att] } now,
          1)) := by
  unfold attemptRecoveryStep
  rw [if_neg (by rw [hr]; simp; omega), if_neg hgate]

theorem incCount_of_threshold {cfg : ErrorRecoveryConfig} {s : RecoveryState}
    {now : ℚ} (h : cfg.circuitBreakerThreshold ≤ s.failureCount + 1) :
    incrementFailureCount cfg s now =
      { setCircuitBreakerState { s with failureCount := s.failureCount + 1 } .open
        with lastFailureTime := now } := by
  unfold incrementFailureCount
  rw [if_pos h]

theorem incCount_of_lt {cfg : ErrorRecoveryConfig} {s : RecoveryState}
    {now : ℚ} (h : s.failureCount + 1 < cfg.circuitBreakerThreshold) :
    incrementFailureCount cfg s now = { s with failureCount := s.failureCount + 1 } := by
  unfold incrementFailureCount
  rw [if_neg (show ¬(cfg.circuitBreakerThreshold ≤ s.failureCount + 1) from by omega)]

theorem retryable_of_not_gate {quality : Option NetworkQuality} {t : SSEErrorType}
    {a : Nat}
    (hg : ¬((classifyError quality t).retryable = false ∨
      (classifyError quality t).maxRetries < a)) :
    (classifyError quality t).retryable = true ∧
      a ≤ (classifyError quality t).maxRetries := by
  constructor
  · cases h : (classifyError quality t).retryable with
    | false => exact absurd (Or.inl h) hg
    | true => rfl
  · by_contra h
    exact hg (Or.inr (by omega))

theorem step_open_within_timeout {cfg : ErrorRecoveryConfig}
    {quality : Option NetworkQuality} {t : SSEErrorType} {f : Bool}
    {now rand : ℚ} {s : RecoveryState} {a : Nat}
    (ho : s.circuitBreakerState = .open)
    (ht : now - s.lastFailureTime < cfg.circuitBreakerTimeout) :
    (attemptRecoveryStep cfg quality t f now rand s a).1 = .done false ∧
    (attemptRecoveryStep cfg quality t f now rand s a).2.2 = 0 ∧
    (attemptRecoveryStep cfg quality t f now rand s a).2.1.recoveryAttempts =
      s.recoveryAttempts := by
  by_cases hg : (classifyError quality t).retryable = false ∨
      (classifyError quality t).maxRetries < a
  · rw [attemptRecoveryStep_nonretryable hg]
    exact ⟨rfl, rfl, handleMax_recoveryAttempts s now⟩
  · obtain ⟨hr, hle⟩ := retryable_of_not_gate hg
    rw [attemptRecoveryStep_suppressed hr hle ho ht]
    exact ⟨rfl, rfl, rfl⟩

theorem step_open_elapsed_probes {cfg : ErrorRecoveryConfig}
    {quality : Option NetworkQuality} {t : SSEErrorType} {f : Bool}
    {now rand : ℚ} {s : RecoveryState} {a : Nat}
    (hr : (classifyError quality t).retryable = true)
    (hle : a ≤ (classifyError quality t).maxRetries)
    (ho : s.circuitBreakerState = .open)
    (hnt : ¬(now - s.lastFailureTime < cfg.circuitBreakerTimeout)) :
    ∃ rest, (attemptRecoveryStep cfg quality t f now rand s a).2.1.cbEvents =
      s.cbEvents ++ CircuitBreakerState.half_open :: rest := by
  rw [attemptRecoveryStep_run hr hle (fun hc => hnt hc.2)]
  dsimp only
  rw [if_pos ho]
  set s1 := setCircuitBreakerState s .half_open with hs1def
  have hs1cb : s1.circuitBreakerState = .half_open := setCB_state s _
  have hs1ev : s1.cbEvents = s.cbEvents ++ [CircuitBreakerState.half_open] :=
    setCB_cbEvents_of_ne s _ (by rw [ho]; exact fun h => by cases h)
  cases f with
  | true =>
      rw [if_pos rfl]
      dsimp only
      rw [if_pos hs1cb]
      rw [setCB_cbEvents_of_ne _ _ (by intro h; rw [hs1cb] at h; cases h)]
      dsimp only
      rw [hs1ev]
      exact ⟨[CircuitBreakerState.closed], by simp⟩
  | false =>
      rw [if_neg (by simp)]
      dsimp only
      unfold incrementFailureCount
      dsimp only
      by_cases hth : cfg.circuitBreakerThreshold ≤ s1.failureCount + 1
      · rw [if_pos hth]
        unfold setCircuitBreakerState
        dsimp only
        rw [if_neg (by intro h; rw [hs1cb] at h; cases h)]
        dsimp only
        rw [hs1ev]
        exact ⟨[CircuitBreakerState.open], by simp⟩
      · rw [if_neg hth]
        dsimp only
        rw [hs1ev]
        exact ⟨[], by simp⟩


theorem step_halfopen_success {cfg : ErrorRecoveryConfig}
    {quality : Option NetworkQuality} {t : SSEErrorType}
    {now rand : ℚ} {s : RecoveryState} {a : Nat}
    (hr : (classifyError quality t).retryable = true)
    (hle : a ≤ (classifyError quality t).maxRetries)
    (hh : s.circuitBreakerState = .half_open) :
    (attemptRecoveryStep cfg quality t true now rand s a).1 = .done true ∧
    (attemptRecoveryStep cfg quality t true now rand s a).2.1.circuitBreakerState =
      .closed ∧
    (attemptRecoveryStep cfg quality t true now rand s a).2.1.failureCount = 0 ∧
    (attemptRecoveryStep cfg quality t true now rand s a).2.2 = 1 := by
  rw [attemptRecoveryStep_run hr hle (fun hc => by rw [hh] at hc; cases hc.1)]
  dsimp only
  rw [if_pos rfl]
  rw [if_neg (show ¬(s.circuitBreakerState = CircuitBreakerState.open) from
    by rw [hh]; exact fun h => by cases h)]
  dsimp only
  rw [if_pos hh]
  exact ⟨rfl, setCB_state _ _, by rw [setCB_failureCount], rfl⟩

theorem step_failure_no_gate {cfg : ErrorRecoveryConfig}
    {quality : Option NetworkQuality} {t : SSEErrorType}
    {now rand : ℚ} {s : RecoveryState} {a : Nat}
    (hr : (classifyError quality t).retryable = true)
    (hle : a ≤ (classifyError quality t).maxRetries)
    (hne : s.circuitBreakerState ≠ .open) :
    (attemptRecoveryStep cfg quality t false now rand s a).1 = .retry ∧
    (attemptRecoveryStep cfg quality t false now rand s a).2.1.failureCount =
      s.failureCount + 1 ∧
    (cfg.circuitBreakerThreshold ≤ s.failureCount + 1 →
      (attemptRecoveryStep cfg quality t false now rand s a).2.1.circuitBreakerState =
        .open ∧
      (attemptRecoveryStep cfg quality t false now rand s a).2.1.lastFailureTime =
        now) ∧
    (s.failureCount + 1 < cfg.circuitBreakerThreshold →
      (attemptRecoveryStep cfg quality t false now rand s a).2.1.circuitBreakerState =
        s.circuitBreakerState ∧
      (attemptRecoveryStep cfg quality t false now rand s a).2.1.lastFailureTime =
        s.lastFailureTime) := by
  rw [attemptRecoveryStep_run hr hle (fun hc => hne hc.1)]
  dsimp only
  rw [if_neg hne, if_neg (by simp)]
  dsimp only
  unfold incrementFailureCount
  dsimp only
  by_cases hth : cfg.circuitBreakerThreshold ≤ s.failureCount + 1
  · rw [if_pos hth]
    unfold setCircuitBreakerState
    dsimp only
    by_cases hcb : s.circuitBreakerState = CircuitBreakerState.open
    · exact absurd hcb hne
    · rw [if_neg hcb]
      exact ⟨rfl, rfl, fun _ => ⟨rfl, rfl⟩, fun hlt => absurd hth (by omega)⟩
  · rw [if_neg hth]
    exact ⟨rfl, rfl, fun hge => absurd hge hth, fun _ => ⟨rfl, rfl⟩⟩

theorem step_to_open_sets_timestamp {cfg : ErrorRecoveryConfig}
    {quality : Option NetworkQuality} {t : SSEErrorType} {f : Bool}
    {now rand : ℚ} {s : RecoveryState} {a : Nat}
    (hne : s.circuitBreakerState ≠ .open)
    (hpost : (attemptRecoveryStep cfg quality t f now rand s a).2.1.circuitBreakerState =
      .open) :
    (attemptRecoveryStep cfg quality t f now rand s a).2.1.lastFailureTime = now := by
  by_cases hg : (classifyError quality t).retryable = false ∨
      (classifyError quality t).maxRetries < a
  · rw [attemptRecoveryStep_nonretryable hg]
    exact handleMax_lastFailureTime s now
  · obtain ⟨hr, hle⟩ := retryable_of_not_gate hg
    rw [attemptRecoveryStep_run hr hle (fun hc => hne hc.1)] at hpost ⊢
    dsimp only at hpost ⊢
    rw [if_neg hne] at hpost ⊢
    cases f with
    | true =>
        rw [if_pos rfl] at hpost ⊢
        dsimp only at hpost ⊢
        by_cases hcb : s.circuitBreakerState = CircuitBreakerState.half_open
        · rw [if_pos hcb] at hpost
          rw [setCB_state] at hpost
          cases hpost
        · rw [if_neg hcb] at hpost
          exact absurd hpost hne
    | false =>
        rw [if_neg (by simp)] at hpost ⊢
        dsimp only at hpost ⊢
        unfold incrementFailureCount at hpost ⊢
        dsimp only at hpost ⊢
        by_cases hth : cfg.circuitBreakerThreshold ≤ s.failureCount + 1
        · rw [if_pos hth]
        · rw [if_neg hth] at hpost
          exact absurd hpost hne

/-- C4: for an `exponential_backoff` classification with non-negative base
delay and backoff multiplier at least 1, the delay before jitter is
non-decreasing in the attempt number, and the returned delay (with or
without jitter, for every jitter draw) never exceeds the configured maximum
delay. -/
theorem exponential_backoff_monotone_bounded (cfg : ErrorRecoveryConfig)
    (cb : CircuitBreakerState) (c : ErrorClassification)
    (hs : c.strategy = .exponential_backoff) (hb : 0 ≤ c.baseDelay)
    (hm : 1 ≤ cfg.backoffMultiplier) :
    (∀ a b : Nat, a ≤ b →
      calculateDelayPre cfg cb c a ≤ calculateDelayPre cfg cb c b) ∧
    (∀ (a : Nat) (rand : ℚ), calculateDelay cfg cb c a rand ≤ cfg.maxDelay) := by
  constructor
  · intro a b hab
    unfold calculateDelayPre
    rw [hs]
    exact mul_le_mul_of_nonneg_left
      (pow_le_pow_right₀ hm (by omega)) hb
  · intro a rand
    unfold calculateDelay
    exact min_le_right _ _

/-- C5: classification under network quality `poor` yields the static table
entry with the strategy forced to linear backoff, `maxRetries` replaced by
`max 1 ⌊maxRetries / 2⌋` and the base delay doubled; under `offline` the
entry with `retryable := false` and strategy `fallback`; under any other
quality the table entry unchanged. -/
theorem classify_error_quality_adjustment :
    (∀ t, classifyError (some .poor) t =
      { errorClassificationRules t with
          strategy := .linear_backoff
          maxRetries := max 1 ((errorClassificationRules t).maxRetries / 2)
          baseDelay := (errorClassificationRules t).baseDelay * 2 }) ∧
    (∀ t, classifyError (some .offline) t =
      { errorClassificationRules t with retryable := false, strategy := .fallback }) ∧
    (∀ (t : SSEErrorType) (q : NetworkQuality), q ≠ .poor → q ≠ .offline →
      classifyError (some q) t = errorClassificationRules t) := by
  refine ⟨fun t => ?_, fun t => ?_, fun t q hq1 hq2 => ?_⟩
  · unfold classifyError
    rw [if_pos rfl]
  · unfold classifyError
    rw [if_neg (by decide), if_pos rfl]
  · unfold classifyError
    rw [if_neg (fun h => hq1 (Option.some.inj h)),
      if_neg (fun h => hq2 (Option.some.inj h))]

/-- C6: for every configuration, network quality, attempt count and
recorded clock, invoking recovery for an `auth_error` or `parse_error`
returns `false` without ever executing the supplied recovery function and
without recording any recovery attempt. -/
theorem auth_parse_errors_never_retried (cfg : ErrorRecoveryConfig)
    (quality : Option NetworkQuality) (t : SSEErrorType) (f : Nat → Bool)
    (now rand : Nat → ℚ) (s : RecoveryState) (a : Nat)
    (h : t = SSEErrorType.auth_error ∨ t = SSEErrorType.parse_error) :
    (attemptRecovery cfg quality t f now rand s a).1 = false ∧
    (attemptRecovery cfg quality t f now rand s a).2.2 = 0 ∧
    (attemptRecovery cfg quality t f now rand s a).2.1.recoveryAttempts =
      s.recoveryAttempts := by
  have hr : (classifyError quality t).retryable = false := by
    rcases h with rfl | rfl <;> rcases quality with _ | q <;> (try cases q) <;> decide
  rw [attemptRecovery_done (attemptRecoveryStep_nonretryable (Or.inl hr))]
  exact ⟨rfl, rfl, handleMax_recoveryAttempts s _⟩

/-- C10: for every error whose classification is non-retryable and for
every error whose attempt count exceeds its retry budget, a single call to
`attemptRecovery` returns `false`, never executes the recovery function,
records no attempt, and immediately forces the circuit breaker `open` with
the last-failure timestamp set to the current clock reading. -/
theorem nonretryable_opens_breaker (cfg : ErrorRecoveryConfig)
    (quality : Option NetworkQuality) (t : SSEErrorType) (f : Nat → Bool)
    (now rand : Nat → ℚ) (s : RecoveryState) (a : Nat)
    (h : (classifyError quality t).retryable = false ∨
      (classifyError quality t).maxRetries < a) :
    (attemptRecovery cfg quality t f now rand s a).1 = false ∧
    (attemptRecovery cfg quality t f now rand s a).2.1.circuitBreakerState =
      .open ∧
    (attemptRecovery cfg quality t f now rand s a).2.1.lastFailureTime = now a ∧
    (attemptRecovery cfg quality t f now rand s a).2.2 = 0 ∧
    (attemptRecovery cfg quality t f now rand s a).2.1.recoveryAttempts =
      s.recoveryAttempts := by
  rw [attemptRecovery_done (attemptRecoveryStep_nonretryable h)]
  exact ⟨rfl, handleMax_state s _, handleMax_lastFailureTime s _, rfl,
    handleMax_recoveryAttempts s _⟩

/-- C3 (amended): the circuit breaker starts `closed`; a failed recovery
invocation whose incremented consecutive-failure count reaches the
threshold trips the breaker `open` and sets the last-failure timestamp;
while `open` and within `circuitBreakerTimeout` of the last failure every
call returns `false` without invoking the recovery function or recording an
attempt; once the timeout has elapsed, an attempt whose error is classified
retryable and whose attempt count is within the retry budget probes
`half_open`; a successful attempt in `half_open` closes the breaker and
resets the failure count; a failed attempt in `half_open` increments the
failure count and reopens the breaker (restarting the timer) exactly when
that count reaches the threshold, otherwise the breaker stays `half_open`
with the timer untouched; and every transition to `open` within an attempt
sets the last-failure timestamp to the clock reading of that attempt. -/
theorem circuit_breaker_transitions :
    -- initial state
    initialRecoveryState.circuitBreakerState = CircuitBreakerState.closed ∧
    -- closed, failure count reaches threshold on a failed invocation
    (∀ (cfg : ErrorRecoveryConfig) (q : Option NetworkQuality) (t : SSEErrorType)
       (now rand : ℚ) (s : RecoveryState) (a : Nat),
      (classifyError q t).retryable = true → a ≤ (classifyError q t).maxRetries →
      s.circuitBreakerState = .closed →
      cfg.circuitBreakerThreshold ≤ s.failureCount + 1 →
      (attemptRecoveryStep cfg q t false now rand s a).2.1.circuitBreakerState =
        .open ∧
      (attemptRecoveryStep cfg q t false now rand s a).2.1.lastFailureTime = now) ∧
    -- open, within the timeout: suppressed
    (∀ (cfg : ErrorRecoveryConfig) (q : Option NetworkQuality) (t : SSEErrorType)
       (f : Bool) (now rand : ℚ) (s : RecoveryState) (a : Nat),
      s.circuitBreakerState = .open →
      now - s.lastFailureTime < cfg.circuitBreakerTimeout →
      (attemptRecoveryStep cfg q t f now rand s a).1 = .done false ∧
      (attemptRecoveryStep cfg q t f now rand s a).2.2 = 0 ∧
      (attemptRecoveryStep cfg q t f now rand s a).2.1.recoveryAttempts =
        s.recoveryAttempts) ∧
    -- open, timeout elapsed: a retryable in-budget attempt probes half_open
    (∀ (cfg : ErrorRecoveryConfig) (q : Option NetworkQuality) (t : SSEErrorType)
       (f : Bool) (now rand : ℚ) (s : RecoveryState) (a : Nat),
      (classifyError q t).retryable = true → a ≤ (classifyError q t).maxRetries →
      s.circuitBreakerState = .open →
      ¬(now - s.lastFailureTime < cfg.circuitBreakerTimeout) →
      ∃ rest, (attemptRecoveryStep cfg q t f now rand s a).2.1.cbEvents =
        s.cbEvents ++ CircuitBreakerState.half_open :: rest) ∧
    -- half_open, successful attempt: closed
    (∀ (cfg : ErrorRecoveryConfig) (q : Option NetworkQuality) (t : SSEErrorType)
       (now rand : ℚ) (s : RecoveryState) (a : Nat),
      (classifyError q t).retryable = true → a ≤ (classifyError q t).maxRetries →
      s.circuitBreakerState = .half_open →
      (attemptRecoveryStep cfg q t true now rand s a).1 = .done true ∧
      (attemptRecoveryStep cfg q t true now rand s a).2.1.circuitBreakerState =
        .closed ∧
      (attemptRecoveryStep cfg q t true now rand s a).2.1.failureCount = 0) ∧
    -- half_open, failed attempt: reopens exactly at the threshold
    (∀ (cfg : ErrorRecoveryConfig) (q : Option NetworkQuality) (t : SSEErrorType)
       (now rand : ℚ) (s : RecoveryState) (a : Nat),
      (classifyError q t).retryable = true → a ≤ (classifyError q t).maxRetries →
      s.circuitBreakerState = .half_open →
      (attemptRecoveryStep cfg q t false now rand s a).1 = .retry ∧
      (attemptRecoveryStep cfg q t false now rand s a).2.1.failureCount =
        s.failureCount + 1 ∧
      (cfg.circuitBreakerThreshold ≤ s.failureCount + 1 →
        (attemptRecoveryStep cfg q t false now rand s a).2.1.circuitBreakerState =
          .open ∧
        (attemptRecoveryStep cfg q t false now rand s a).2.1.lastFailureTime = now) ∧
      (s.failureCount + 1 < cfg.circuitBreakerThreshold →
        (attemptRecoveryStep cfg q t false now rand s a).2.1.circuitBreakerState =
          .half_open ∧
        (attemptRecoveryStep cfg q t false now rand s a).2.1.lastFailureTime =
          s.lastFailureTime)) ∧
    -- every transition to open sets the last-failure timestamp
    (∀ (cfg : ErrorRecoveryConfig) (q : Option NetworkQuality) (t : SSEErrorType)
       (f : Bool) (now rand : ℚ) (s : RecoveryState) (a : Nat),
      s.circuitBreakerState ≠ .open →
      (attemptRecoveryStep cfg q t f now rand s a).2.1.circuitBreakerState = .open →
      (attemptRecoveryStep cfg q t f now rand s a).2.1.lastFailureTime = now) := by
  refine ⟨rfl, ?_, ?_, ?_, ?_, ?_, ?_⟩
  · intro cfg q t now rand s a hr hle hclosed hth
    have h := @step_failure_no_gate cfg q t now rand s a
      hr hle (by rw [hclosed]; exact fun h => by cases h)
    exact h.2.2.1 hth
  · intro cfg q t f now rand s a ho ht
    exact step_open_within_timeout ho ht
  · intro cfg q t f now rand s a hr hle ho hnt
    exact step_open_elapsed_probes hr hle ho hnt
  · intro cfg q t now rand s a hr hle hh
    obtain ⟨h1, h2, h3, _⟩ := @step_halfopen_success cfg q t now rand s a hr hle hh
    exact ⟨h1, h2, h3⟩
  · intro cfg q t now rand s a hr hle hh
    have hne : s.circuitBreakerState ≠ .open := by rw [hh]; exact fun h => by cases h
    obtain ⟨h1, h2, h3, h4⟩ := @step_failure_no_gate cfg q t now rand s a hr hle hne
    exact ⟨h1, h2, h3, fun hlt => ⟨(h4 hlt).1.trans hh, (h4 hlt).2⟩⟩
  · intro cfg q t f now rand s a hne hpost
    exact step_to_open_sets_timestamp hne hpost

/-- C3 (counterexample): with the default configuration, an `auth_error`
call (non-retryable) trips the breaker `open` at time 1000 with the failure
count still 0; a `connection_lost` recovery attempt at time 61001 (after
the 60000 ms timeout) probes `half_open` and its recovery invocation fails
— yet the breaker remains `half_open`, the last-failure timestamp stays
1000 (the timer is not restarted) and the listener trace records no
transition back to `open`, contradicting the claim that a failed attempt in
`half_open` reopens the breaker and restarts the timer. -/
theorem circuit_breaker_half_open_counterexample :
    (attemptRecoveryStep defaultRecoveryConfig none SSEErrorType.auth_error false
        1000 0 initialRecoveryState 1).2.1 =
      { circuitBreakerState := CircuitBreakerState.open, failureCount := 0
        lastFailureTime := 1000, recoveryAttempts := []
        cbEvents := [CircuitBreakerState.open] } ∧
    (attemptRecoveryStep defaultRecoveryConfig none SSEErrorType.connection_lost false
        61001 0
        { circuitBreakerState := CircuitBreakerState.open, failureCount := 0
          lastFailureTime := 1000, recoveryAttempts := []
          cbEvents := [CircuitBreakerState.open] } 1).1 = AttemptOutcome.retry ∧
    (attemptRecoveryStep defaultRecoveryConfig none SSEErrorType.connection_lost false
        61001 0
        { circuitBreakerState := CircuitBreakerState.open, failureCount := 0
          lastFailureTime := 1000, recoveryAttempts := []
          cbEvents := [CircuitBreakerState.open] } 1).2.1.circuitBreakerState =
      CircuitBreakerState.half_open ∧
    (attemptRecoveryStep defaultRecoveryConfig none SSEErrorType.connection_lost false
        61001 0
        { circuitBreakerState := CircuitBreakerState.open, failureCount := 0
          lastFailureTime := 1000, recoveryAttempts := []
          cbEvents := [CircuitBreakerState.open] } 1).2.1.lastFailureTime = 1000 ∧
    (attemptRecoveryStep defaultRecoveryConfig none SSEErrorType.connection_lost false
        61001 0
        { circuitBreakerState := CircuitBreakerState.open, failureCount := 0
          lastFailureTime := 1000, recoveryAttempts := []
          cbEvents := [CircuitBreakerState.open] } 1).2.1.cbEvents =
      [CircuitBreakerState.open, CircuitBreakerState.half_open] := by
  have h1 : (attemptRecoveryStep defaultRecoveryConfig none SSEErrorType.auth_error
      false 1000 0 initialRecoveryState 1).2.1 =
      { circuitBreakerState := CircuitBreakerState.open, failureCount := 0
        lastFailureTime := 1000, recoveryAttempts := []
        cbEvents := [CircuitBreakerState.open] } := by
    rw [attemptRecoveryStep_nonretryable (Or.inl (by decide))]
    decide
  have hrun := @attemptRecoveryStep_run defaultRecoveryConfig none
    SSEErrorType.connection_lost false 61001 0
    { circuitBreakerState := CircuitBreakerState.open, failureCount := 0
      lastFailureTime := 1000, recoveryAttempts := []
      cbEvents := [CircuitBreakerState.open] } 1
    (by decide) (by decide)
    (fun hc => absurd hc.2 (by norm_num [defaultRecoveryConfig]))
  refine ⟨h1, ?_, ?_, ?_, ?_⟩ <;>
    · rw [hrun]
      decide

/-- C4 witness at the default configuration and the `connection_failed`
table entry. -/
theorem exponential_backoff_monotone_bounded_witness :
    calculateDelayPre defaultRecoveryConfig CircuitBreakerState.closed
      (errorClassificationRules SSEErrorType.connection_failed) 1 ≤
    calculateDelayPre defaultRecoveryConfig CircuitBreakerState.closed
      (errorClassificationRules SSEErrorType.connection_failed) 3 ∧
    calculateDelay defaultRecoveryConfig CircuitBreakerState.closed
      (errorClassificationRules SSEErrorType.connection_failed) 2 (1 / 2) ≤
      defaultRecoveryConfig.maxDelay :=
  ⟨(exponential_backoff_monotone_bounded defaultRecoveryConfig
      CircuitBreakerState.closed (errorClassificationRules SSEErrorType.connection_failed)
      rfl (by norm_num [errorClassificationRules])
      (by norm_num [defaultRecoveryConfig])).1 1 3 (by norm_num),
   (exponential_backoff_monotone_bounded defaultRecoveryConfig
      CircuitBreakerState.closed (errorClassificationRules SSEErrorType.connection_failed)
      rfl (by norm_num [errorClassificationRules])
      (by norm_num [defaultRecoveryConfig])).2 2 (1 / 2)⟩

/-- C5 witness at concrete error kinds and qualities. -/
theorem classify_error_quality_adjustment_witness :
    classifyError (some .poor) SSEErrorType.connection_lost =
      { errorClassificationRules SSEErrorType.connection_lost with
          strategy := .linear_backoff
          maxRetries := max 1
            ((errorClassificationRules SSEErrorType.connection_lost).maxRetries / 2)
          baseDelay :=
            (errorClassificationRules SSEErrorType.connection_lost).baseDelay * 2 } ∧
    classifyError (some .offline) SSEErrorType.auth_error =
      { errorClassificationRules SSEErrorType.auth_error with
          retryable := false, strategy := .fallback } ∧
    classifyError (some .good) SSEErrorType.server_error =
      errorClassificationRules SSEErrorType.server_error :=
  ⟨classify_error_quality_adjustment.1 SSEErrorType.connection_lost,
   classify_error_quality_adjustment.2.1 SSEErrorType.auth_error,
   classify_error_quality_adjustment.2.2 SSEErrorType.server_error .good
     (by decide) (by decide)⟩

/-- C6 witness: an `auth_error` at attempt 1 under the default
configuration. -/
theorem auth_parse_errors_never_retried_witness :
    (attemptRecovery defaultRecoveryConfig none SSEErrorType.auth_error
      (fun _ => true) (fun _ => 0) (fun _ => 0) initialRecoveryState 1).1 = false ∧
    (attemptRecovery defaultRecoveryConfig none SSEErrorType.auth_error
      (fun _ => true) (fun _ => 0) (fun _ => 0) initialRecoveryState 1).2.2 = 0 ∧
    (attemptRecovery defaultRecoveryConfig none SSEErrorType.auth_error
      (fun _ => true) (fun _ => 0) (fun _ => 0) initialRecoveryState 1).2.1.recoveryAttempts =
      [] :=
  auth_parse_errors_never_retried defaultRecoveryConfig none SSEErrorType.auth_error
    (fun _ => true) (fun _ => 0) (fun _ => 0) initialRecoveryState 1 (Or.inl rfl)

/-- C10 witness: a `connection_lost` error whose attempt count 4 exceeds
its retry budget of 3. -/
theorem nonretryable_opens_breaker_witness :
    (attemptRecovery defaultRecoveryConfig none SSEErrorType.connection_lost
      (fun _ => false) (fun _ => 42) (fun _ => 0) initialRecoveryState 4).1 = false ∧
    (attemptRecovery defaultRecoveryConfig none SSEErrorType.connection_lost
      (fun _ => false) (fun _ => 42) (fun _ => 0) initialRecoveryState
      4).2.1.circuitBreakerState = CircuitBreakerState.open ∧
    (attemptRecovery defaultRecoveryConfig none SSEErrorType.connection_lost
      (fun _ => false) (fun _ => 42) (fun _ => 0) initialRecoveryState
      4).2.1.lastFailureTime = 42 ∧
    (attemptRecovery defaultRecoveryConfig none SSEErrorType.connection_lost
      (fun _ => false) (fun _ => 42) (fun _ => 0) initialRecoveryState 4).2.2 = 0 :=
  have h := nonretryable_opens_breaker defaultRecoveryConfig none
    SSEErrorType.connection_lost (fun _ => false) (fun _ => 42) (fun _ => 0)
    initialRecoveryState 4 (Or.inr (by decide))
  ⟨h.1, h.2.1, h.2.2.1, h.2.2.2.1⟩

/-- C9 witness: a concrete malformed data line under a parse function that
rejects every payload. -/
theorem malformed_payload_isolated_witness :
    processSSELine (fun _ => none) initialServiceState ("data: zzz".toList) =
      (initialServiceState, [Emit.payloadAttempt ("zzz".toList), parseErrorEmit]) ∧
    processLines (fun _ => none) (initialServiceState, []) ["data: zzz".toList] =
      processLines (fun _ => none)
        (initialServiceState,
         [] ++ [Emit.payloadAttempt ("zzz".toList), parseErrorEmit]) [] :=
  have h := malformed_payload_isolated (fun _ => none) initialServiceState
    ("data: zzz".toList) ("zzz".toList) (by decide) (by decide) rfl
  ⟨h.1, h.2 [] []⟩

/-- C3 witness: each transition clause instantiated at the default
configuration with concrete states, clocks and attempt counts. -/
theorem circuit_breaker_transitions_witness :
    (attemptRecoveryStep defaultRecoveryConfig none SSEErrorType.connection_failed
        false 7 0
        { circuitBreakerState := CircuitBreakerState.closed, failureCount := 4
          lastFailureTime := 0, recoveryAttempts := [], cbEvents := [] }
        1).2.1.circuitBreakerState = CircuitBreakerState.open ∧
    (attemptRecoveryStep defaultRecoveryConfig none SSEErrorType.connection_failed
        true 100 0
        { circuitBreakerState := CircuitBreakerState.open, failureCount := 0
          lastFailureTime := 0, recoveryAttempts := [], cbEvents := [] }
        1).1 = AttemptOutcome.done false ∧
    (∃ rest, (attemptRecoveryStep defaultRecoveryConfig none
        SSEErrorType.connection_failed false 60000 0
        { circuitBreakerState := CircuitBreakerState.open, failureCount := 0
          lastFailureTime := 0, recoveryAttempts := [], cbEvents := [] }
        1).2.1.cbEvents = [] ++ CircuitBreakerState.half_open :: rest) ∧
    (attemptRecoveryStep defaultRecoveryConfig none SSEErrorType.connection_failed
        true 5 0
        { circuitBreakerState := CircuitBreakerState.half_open, failureCount := 0
          lastFailureTime := 0, recoveryAttempts := [], cbEvents := [] }
        1).2.1.circuitBreakerState = CircuitBreakerState.closed ∧
    (attemptRecoveryStep defaultRecoveryConfig none SSEErrorType.connection_failed
        false 5 0
        { circuitBreakerState := CircuitBreakerState.half_open, failureCount := 0
          lastFailureTime := 0, recoveryAttempts := [], cbEvents := [] }
        1).2.1.circuitBreakerState = CircuitBreakerState.half_open ∧
    (attemptRecoveryStep defaultRecoveryConfig none SSEErrorType.connection_failed
        false 7 0
        { circuitBreakerState := CircuitBreakerState.closed, failureCount := 4
          lastFailureTime := 0, recoveryAttempts := [], cbEvents := [] }
        1).2.1.lastFailureTime = 7 := by
  have h := circuit_breaker_transitions
  refine ⟨?_, ?_, ?_, ?_, ?_, ?_⟩
  · exact (h.2.1 defaultRecoveryConfig none SSEErrorType.connection_failed 7 0
      { circuitBreakerState := CircuitBreakerState.closed, failureCount := 4
        lastFailureTime := 0, recoveryAttempts := [], cbEvents := [] } 1
      (by decide) (by decide) rfl (by decide)).1
  · exact (h.2.2.1 defaultRecoveryConfig none SSEErrorType.connection_failed true 100 0
      { circuitBreakerState := CircuitBreakerState.open, failureCount := 0
        lastFailureTime := 0, recoveryAttempts := [], cbEvents := [] } 1
      rfl (by norm_num [defaultRecoveryConfig])).1
  · exact h.2.2.2.1 defaultRecoveryConfig none SSEErrorType.connection_failed false
      60000 0
      { circuitBreakerState := CircuitBreakerState.open, failureCount := 0
        lastFailureTime := 0, recoveryAttempts := [], cbEvents := [] } 1
      (by decide) (by decide) rfl (by norm_num [defaultRecoveryConfig])
  · exact (h.2.2.2.2.1 defaultRecoveryConfig none SSEErrorType.connection_failed 5 0
      { circuitBreakerState := CircuitBreakerState.half_open, failureCount := 0
        lastFailureTime := 0, recoveryAttempts := [], cbEvents := [] } 1
      (by decide) (by decide) rfl).2.1
  · exact ((h.2.2.2.2.2.1 defaultRecoveryConfig none SSEErrorType.connection_failed 5 0
      { circuitBreakerState := CircuitBreakerState.half_open, failureCount := 0
        lastFailureTime := 0, recoveryAttempts := [], cbEvents := [] } 1
      (by decide) (by decide) rfl).2.2.2 (by decide)).1
  · exact h.2.2.2.2.2.2 defaultRecoveryConfig none SSEErrorType.connection_failed false
      7 0
      { circuitBreakerState := CircuitBreakerState.closed, failureCount := 4
        lastFailureTime := 0, recoveryAttempts := [], cbEvents := [] } 1
      (by decide)
      (h.2.1 defaultRecoveryConfig none SSEErrorType.connection_failed 7 0
        { circuitBreakerState := CircuitBreakerState.closed, failureCount := 4
          lastFailureTime := 0, recoveryAttempts := [], cbEvents := [] } 1
        (by decide) (by decide) rfl (by decide)).1
